import Mathlib

/-!
Verification of the lyric chain-game engine in `src/main.py`
(`astrbot_plugin_lyricsplus`): the similarity scorer, the Levenshtein
dynamic program, the LRC parser with metadata filtering, the position
locator, the turn state machine `LyricGame.handle`, session exit and the
periodic sweep. Python strings are modelled as lists of characters,
`time.time()` / `datetime.now()` readings as integers, and the config
message templates at their default values (the code reads them through
`config.get` with those defaults).
-/

namespace LyricsPlus

/-- Characters of a Python `str`, modelled as a list of Lean characters. -/
abbrev Str := List Char

/-- Python regex `\s` on the character ranges this plugin handles
(ASCII whitespace). -/
def isSpaceChar (c : Char) : Bool :=
  c == ' ' || c == '\t' || c == '\n' || c == '\r' || c == '\x0b' || c == '\x0c'

/-- Python regex `\w` restricted to the character ranges exercised by this
plugin: ASCII letters, digits, underscore, and CJK ideographs (the source
pattern `[^\w\s一-鿿]` names the CJK range explicitly). -/
def isWordChar (c : Char) : Bool :=
  c.isAlpha || c.isDigit || c == '_' || (0x4e00 ≤ c.toNat && c.toNat ≤ 0x9fff)

/-- `str.lower`, which on the ASCII letters appearing in the configured
keywords lowercases, and fixes CJK characters. -/
def pyLower (c : Char) : Char := c.toLower

/-- `LyricGame.clean_text` (src/main.py lines 381-399): drop every
character that is not a word character, whitespace or a CJK ideograph,
then drop all whitespace, then lowercase. -/
def clean_text (text : Str) : Str :=
  ((text.filter fun c => isWordChar c || isSpaceChar c).filter
      fun c => !isSpaceChar c).map pyLower

/-- Unit cost of substituting one character for another. -/
def subCost (a b : Char) : Nat := if a = b then 0 else 1

/-- Textbook Levenshtein edit distance (insert/delete/substitute at unit
cost), by structural recursion; the reference against which the iterative
code is checked. -/
def levSpec : Str → Str → Nat
  | [], ys => ys.length
  | x :: xs, [] => (x :: xs).length
  | x :: xs, y :: ys =>
    min (levSpec xs (y :: ys) + 1)
      (min (levSpec (x :: xs) ys + 1) (levSpec xs ys + subCost x y))

/-- Inner loop of `LyricGame._levenshtein_distance` (src/main.py lines
460-470): given the not-yet-processed part of `s2`, the aligned tail of
the previous row and the entry just written into the current row, produce
the remaining entries of the current row. -/
def levRow (c1 : Char) : Str → List Nat → Nat → List Nat
  | [], _, _ => []
  | c2 :: s2, prevRow, last =>
    let insertions := prevRow.tail.headD 0 + 1
    let deletions := last + 1
    let substitutions := prevRow.headD 0 + subCost c1 c2
    let entry := min insertions (min deletions substitutions)
    entry :: levRow c1 s2 prevRow.tail entry

/-- Outer loop of `_levenshtein_distance`: fold the row update over the
characters of `s1`; `i` counts the characters already processed. -/
def levRows (s2 : Str) : Str → List Nat → Nat → List Nat
  | [], prevRow, _ => prevRow
  | c1 :: s1, prevRow, i =>
    levRows s2 s1 ((i + 1) :: levRow c1 s2 prevRow (i + 1)) (i + 1)

/-- `_levenshtein_distance` after the argument swap: `len(s2) == 0`
shortcut, then the row dynamic program seeded with `range(len(s2)+1)`,
answering `previous_row[-1]`. -/
def levCore (s1 s2 : Str) : Nat :=
  if s2.length = 0 then s1.length
  else (levRows s2 s1 (List.range (s2.length + 1)) 0).getLastD 0

/-- `LyricGame._levenshtein_distance` (src/main.py lines 441-472): swap
the arguments so the second is the shorter, then run the row DP. -/
def levenshtein_distance (s1 s2 : Str) : Nat :=
  if s1.length < s2.length then levCore s2 s1 else levCore s1 s2

/-- Round `N / D` to the nearest integer, ties to even — the IEEE-754
default rounding used by every CPython float operation. -/
def roundNE (N D : Nat) : Nat :=
  let k := N / D
  let r := N % D
  if 2 * r < D then k
  else if D < 2 * r then k + 1
  else if k % 2 = 0 then k else k + 1

/-- `⌊log₂ n⌋` with an explicit halving budget; structural recursion so
the kernel can evaluate it on literals. -/
def log2Aux : Nat → Nat → Nat
  | 0, _ => 0
  | fuel + 1, n => if n ≤ 1 then 0 else log2Aux fuel (n / 2) + 1

/-- `⌊log₂ n⌋` for `n ≥ 1` (and `0` at `0`): `n` halvings always
suffice. -/
def nlog2 (n : Nat) : Nat := log2Aux n n

/-- Does `2 ^ e0 * den ≤ n` hold (with `e0 : ℤ`)? -/
def twoPowMulLe (e0 : Int) (den n : Nat) : Bool :=
  if 0 ≤ e0 then decide (den * 2 ^ e0.toNat ≤ n)
  else decide (den ≤ n * 2 ^ (-e0).toNat)

/-- `⌊log₂ (n / den)⌋` for `n, den ≥ 1`: the floor log of `n` minus that
of `den` is off by at most one, corrected by a single comparison. -/
def floorLog2Q (n den : Nat) : Int :=
  let e0 : Int := (nlog2 n : Int) - (nlog2 den : Int)
  if twoPowMulLe e0 den n then e0 else e0 - 1

/-- The correctly rounded IEEE-754 binary64 value of `n / den`, as a
dyadic pair `(mantissa, exponent)` with value `mantissa * 2 ^ exponent`:
53 significant bits, round to nearest with ties to even, and gradual
underflow (the exponent of the unit in the last place never goes below
`-1074`). Overflow cannot arise at the arguments this development feeds
it (quotients `≤ 1` and derived values in `[0, 100]`). -/
def fl64 (n den : Nat) : Nat × Int :=
  if n = 0 then (0, 0)
  else
    let e52 : Int := floorLog2Q n den - 52
    let E : Int := if e52 ≤ -1074 then -1074 else e52
    (roundNE (n * 2 ^ (-E).toNat) (den * 2 ^ E.toNat), E)

/-- `int((1 - d / m) * 100)` exactly as CPython evaluates it (line 437 of
src/main.py): `d / m` is the correctly rounded double of the integer
quotient, the subtraction and the multiplication by the exact double
`100` each round to nearest (ties to even), and `int()` truncates toward
zero. Checked against CPython on an exhaustive grid `d ≤ m ≤ 80` plus
large and subnormal-range arguments. -/
def pySimilarityInt (d m : Nat) : Int :=
  let x := fl64 d m
  let F : Int := if x.2 ≤ 0 then x.2 else 0
  let diff : Int := 2 ^ (-F).toNat - (x.1 : Int) * 2 ^ (x.2 - F).toNat
  if diff = 0 then 0
  else
    let a := diff.natAbs
    let y := if 0 ≤ F then fl64 (a * 2 ^ F.toNat) 1 else fl64 a (2 ^ (-F).toNat)
    let z := if 0 ≤ y.2 then fl64 (100 * y.1 * 2 ^ y.2.toNat) 1
             else fl64 (100 * y.1) (2 ^ (-y.2).toNat)
    let t : Nat := if 0 ≤ z.2 then z.1 * 2 ^ z.2.toNat else z.1 / 2 ^ (-z.2).toNat
    if diff < 0 then -(t : Int) else (t : Int)

/-- `LyricGame.calculate_similarity` (src/main.py lines 401-439). The
fourth tier is `max(0, int((1 - distance / max_len) * 100))` with the
float expression modelled bit-exactly by `pySimilarityInt`. -/
def calculate_similarity (text1 text2 : Str) : Nat :=
  if text1 = [] ∨ text2 = [] then 0
  else
    let clean1 := clean_text text1
    let clean2 := clean_text text2
    if clean1 = [] ∨ clean2 = [] then 0
    else if clean1 = clean2 then 100
    else if clean1 <:+: clean2 ∨ clean2 <:+: clean1 then 90
    else
      let maxLen := max clean1.length clean2.length
      if maxLen = 0 then 0
      else
        (max 0 (pySimilarityInt (levenshtein_distance clean1 clean2)
          maxLen)).toNat

/-- `LyricGame.is_match` (src/main.py lines 474-486); `thr` is the
configured `match_threshold`. -/
def is_match (thr : Nat) (user_input expected : Str) : Bool :=
  decide (thr ≤ calculate_similarity user_input expected)

/-- The row the dynamic program should hold after consuming the prefix
`t` of `s1` and the prefix `q` of `s2`: distances from `t` to every
extension of `q` by a prefix of the remaining input `r`. -/
def specSeg (t q : Str) : Str → List Nat
  | [] => [levSpec t q]
  | c2 :: rest => levSpec t q :: specSeg t (q ++ [c2]) rest

/-- Round to nearest (half upward) of the fraction `num / den`; what the
spec sentence `round((1 - d/m) * 100)` denotes (the argument on which the
claim is refuted is not a tie, so the tie rule is immaterial). -/
def roundNearest (num den : Nat) : Nat := (2 * num + den) / (2 * den)

/-- The score exactly as the spec claim states it, with `round` in the
edit-distance tier and the textbook Levenshtein distance `levSpec`. -/
def scoreSpecRounded (a b : Str) : Nat :=
  let a' := clean_text a
  let b' := clean_text b
  if a' = [] ∨ b' = [] then 0
  else if a' = b' then 100
  else if a' <:+: b' ∨ b' <:+: a' then 90
  else
    let m := max a'.length b'.length
    max 0 (roundNearest ((m - levSpec a' b') * 100) m)

/-- The score with the edit-distance tier truncated (`int()`) rather
than rounded, `d` being the textbook Levenshtein distance `levSpec` of
the normalized strings — what the code actually computes. -/
def scoreSpecTrunc (a b : Str) : Nat :=
  let a' := clean_text a
  let b' := clean_text b
  if a' = [] ∨ b' = [] then 0
  else if a' = b' then 100
  else if a' <:+: b' ∨ b' <:+: a' then 90
  else
    let m := max a'.length b'.length
    (max 0 (pySimilarityInt (levSpec a' b') m)).toNat

/-- One parsed lyric line: timestamp in milliseconds and text. -/
structure LyricLine where
  time : Nat
  text : Str
deriving DecidableEq

/-- A search candidate as stored in `song_candidates`. -/
structure Song where
  id : Str
  name : Str
  artist : Str
  album : Str
deriving DecidableEq

/-- `LyricGameSession` (src/main.py lines 295-308). -/
structure Session where
  song_id : Option Str := none
  lyrics : List LyricLine := []
  position : Nat := 0
  in_song : Bool := false
  last_time : Int := 0
  last_active : Int
  song_info : Option Song := none
  selecting_song : Bool := false
  song_candidates : List Song := []
  start_lyric_keyword : Option Str := none
deriving DecidableEq

/-- `LyricGameSession.__init__`: all fields at their defaults,
`last_active = datetime.now()`. -/
def initSession (now : Int) : Session := { last_active := now }

/-- The configuration values the core reads (with the source defaults). -/
structure Config where
  session_timeout : Int := 60
  match_threshold : Nat := 75

/-- Default line used to make list indexing total; never selected under
the in-range guards mirrored from the source. -/
def dfl : LyricLine := ⟨0, []⟩

/-- Default `msg_song_completed` template. -/
def msg_song_completed : Str := "🎉 歌曲已唱完！".data

/-- Default `msg_song_completed_with_last_line` template
(`{last_line}\n\n🎉 歌曲已唱完！`), applied to the last line. -/
def msg_song_completed_with_last_line (last_line : Str) : Str :=
  last_line ++ "\n\n🎉 歌曲已唱完！".data

/-- Default `msg_match_failed` template with its three placeholders
substituted. -/
def msg_match_failed (similarity : Nat) (user_input expected : Str) : Str :=
  "不匹配（相似度: ".data ++ (Nat.repr similarity).data
    ++ "%），请重试！\n你输入: ".data ++ user_input
    ++ "\n正确歌词: ".data ++ expected
    ++ "\n提示：发送\x27退出接歌\x27可退出游戏".data

/-- Default `msg_exit_game` template. -/
def msg_exit_game : Str := "已退出连唱模式".data

/-- `LyricGame.handle` (src/main.py lines 560-631) as a pure function of
the session and the `time.time()` reading `now`: the reply (if any) and
the updated session. `get_session` refreshes `last_active`; the lazy
timeout check may clear `in_song`; `last_time` is then set to `now`; then
the turn logic runs. -/
def handle (cfg : Config) (user_input : Str) (now : Int) (s0 : Session) :
    Option Str × Session :=
  let s1 : Session := { s0 with last_active := now }
  let s2 : Session :=
    if now - s1.last_time > cfg.session_timeout ∧ s1.in_song = true then
      { s1 with in_song := false }
    else s1
  let s : Session := { s2 with last_time := now }
  if s.in_song = false then (none, s)
  else if s.lyrics.length ≤ s.position then
    (some msg_song_completed, { s with in_song := false })
  else
    let expected := (s.lyrics.getD s.position dfl).text
    if is_match cfg.match_threshold user_input expected = true then
      if s.position + 1 < s.lyrics.length then
        let next_line := (s.lyrics.getD (s.position + 1) dfl).text
        let s' : Session := { s with position := s.position + 2 }
        if s'.lyrics.length ≤ s'.position then
          (some (msg_song_completed_with_last_line next_line),
            { s' with in_song := false })
        else (some next_line, s')
      else (some msg_song_completed, { s with in_song := false })
    else
      let similarity := calculate_similarity user_input expected
      (some (msg_match_failed similarity user_input expected), s)

/-- First index at least `start` and below `start + count` whose line
text matches the input — the `for i in range(start, end)` scans inside
`LyricGame.find_position`. -/
def firstMatchFrom (thr : Nat) (user_input : Str) (lyrics : List LyricLine) :
    Nat → Nat → Option Nat
  | _, 0 => none
  | i, count + 1 =>
    if is_match thr user_input (lyrics.getD i dfl).text = true then some i
    else firstMatchFrom thr user_input lyrics (i + 1) count

/-- `LyricGame.find_position` (src/main.py lines 488-532): the four
strategies in order — the expected line, the one after it, the local
window `[max(0, position-3), min(len, position+10))`, the global scan —
and `-1` when nothing matches. The three session-aware strategies all
require `in_song`. -/
def find_position (thr : Nat) (user_input : Str) (lyrics : List LyricLine)
    (s : Session) : Int :=
  if lyrics = [] then -1
  else if s.in_song = true ∧ s.position < lyrics.length ∧
      is_match thr user_input (lyrics.getD s.position dfl).text = true then
    (s.position : Int)
  else if s.in_song = true ∧ s.position + 1 < lyrics.length ∧
      is_match thr user_input (lyrics.getD (s.position + 1) dfl).text = true then
    ((s.position + 1 : Nat) : Int)
  else
    match (if s.in_song = true then
        firstMatchFrom thr user_input lyrics (s.position - 3)
          (min lyrics.length (s.position + 10) - (s.position - 3))
      else none) with
    | some i => (i : Int)
    | none =>
      match firstMatchFrom thr user_input lyrics 0 lyrics.length with
      | some i => (i : Int)
      | none => -1

/-- Scan for the first `]` closing the non-greedy `^\[.*?\]` match; `.`
does not cross a newline. `none` when the pattern does not match. -/
def dropThroughBracket : Str → Option Str
  | [] => none
  | ']' :: rest => some rest
  | '\n' :: _ => none
  | _ :: rest => dropThroughBracket rest

/-- `re.sub(r'^\[.*?\]', '', text)` (src/main.py line 274): remove one
leading bracket group when present. -/
def stripLeadingTag (text : Str) : Str :=
  match text with
  | '[' :: rest =>
    match dropThroughBracket rest with
    | some remainder => remainder
    | none => text
  | _ => text

/-- The normalisation inside `_is_metadata_line` (src/main.py lines
279-281): full-width colon folded to `:`, all whitespace removed,
lowercased. -/
def normalizeMeta (text : Str) : Str :=
  ((text.map fun c => if c = '：' then ':' else c).filter
      fun c => !isSpaceChar c).map pyLower

/-- Keyword cleaning in `_is_metadata_line` (line 286): whitespace
removed, lowercased. -/
def cleanKeyword (kw : Str) : Str :=
  (kw.filter fun c => !isSpaceChar c).map pyLower

/-- `NeteaseAPI._is_metadata_line` (src/main.py lines 266-292). -/
def is_metadata_line (keywords : List Str) (text : Str) : Bool :=
  if text = [] then false
  else
    let text_content := stripLeadingTag text
    if text_content.all isSpaceChar then false
    else
      let cleaned := normalizeMeta text_content
      keywords.any fun kw => (cleanKeyword kw ++ [':']).isPrefixOf cleaned

/-- The drop condition exactly as the spec claim states it: the
normalized line text itself starts with `"<normalized-keyword>:"` for
some configured keyword (no mention of the leading-tag stripping). -/
def metadataDropSpec (keywords : List Str) (text : Str) : Bool :=
  keywords.any fun kw => (cleanKeyword kw ++ [':']).isPrefixOf (normalizeMeta text)

/-- Python `str.strip`. -/
def pyStrip (s : Str) : Str :=
  ((s.dropWhile isSpaceChar).reverse.dropWhile isSpaceChar).reverse

/-- Python `str.split('\n')`, accumulator form. -/
def splitLinesAux : Str → Str → List Str
  | [], acc => [acc.reverse]
  | '\n' :: rest, acc => acc.reverse :: splitLinesAux rest []
  | c :: rest, acc => splitLinesAux rest (c :: acc)

/-- Python `str.split('\n')`. -/
def splitLines (s : Str) : List Str := splitLinesAux s []

/-- One attempt of the pattern `\[(\d+):(\d+)\.(\d+)\]([^\[]+)` anchored
at the start of `s`: the four groups and the rest of the line. Greedy
`\d+` and `[^\[]+` are maximal runs because each is followed by a
character they cannot match. -/
def tryMatchAt (s : Str) : Option ((Str × Str × Str × Str) × Str) :=
  match s with
  | '[' :: r1 =>
    let d1 := r1.takeWhile Char.isDigit
    let r2 := r1.dropWhile Char.isDigit
    if d1 = [] then none
    else
      match r2 with
      | ':' :: r3 =>
        let d2 := r3.takeWhile Char.isDigit
        let r4 := r3.dropWhile Char.isDigit
        if d2 = [] then none
        else
          match r4 with
          | '.' :: r5 =>
            let d3 := r5.takeWhile Char.isDigit
            let r6 := r5.dropWhile Char.isDigit
            if d3 = [] then none
            else
              match r6 with
              | ']' :: r7 =>
                let txt := r7.takeWhile fun c => c != '['
                let r8 := r7.dropWhile fun c => c != '['
                if txt = [] then none else some ((d1, d2, d3, txt), r8)
              | _ => none
          | _ => none
      | _ => none
  | _ => none

/-- `re.findall` of that pattern over one line: left-to-right scan,
continuing after each match. `fuel` bounds the recursion; every step
consumes at least one character, so `fuel = s.length` never truncates. -/
def findallTags : Nat → Str → List (Str × Str × Str × Str)
  | 0, _ => []
  | _, [] => []
  | fuel + 1, c :: rest =>
    match tryMatchAt (c :: rest) with
    | some (g, r8) => g :: findallTags fuel r8
    | none => findallTags fuel rest

/-- Python `int` on a non-empty digit string. -/
def natOfDigits (s : Str) : Nat :=
  s.foldl (fun n c => n * 10 + (c.toNat - '0'.toNat)) 0

/-- Timestamp computation of `_parse_lrc_lyrics` (lines 242-254): a
2-digit fraction is scaled by 10, otherwise taken as written. -/
def lrcTimestamp (d1 d2 d3 : Str) : Nat :=
  (natOfDigits d1 * 60 + natOfDigits d2) * 1000 +
    natOfDigits d3 * (if d3.length = 2 then 10 else 1)

/-- `NeteaseAPI._parse_lrc_lyrics` (src/main.py lines 218-264): split the
stripped content into physical lines, `findall` the timestamp tags, keep
stripped non-empty non-metadata texts, and sort by timestamp (Python
`list.sort(key=...)` is a stable sort, modelled by `mergeSort`). -/
def parse_lrc_lyrics (keywords : List Str) (lrc_content : Str) : List LyricLine :=
  if lrc_content = [] then []
  else
    let ls := splitLines (pyStrip lrc_content)
    let items := ls.flatMap fun line =>
      (findallTags line.length line).filterMap fun g =>
        let text := pyStrip g.2.2.2
        if text = [] then none
        else if is_metadata_line keywords text = true then none
        else some ⟨lrcTimestamp g.1 g.2.1 g.2.2.1, text⟩
    items.mergeSort fun a b => decide (a.time ≤ b.time)

/-- The per-user session map `LyricGame.sessions`, as an association
list with the keys pairwise distinct (a Python `dict`). -/
abbrev Store := List (Str × Session)

/-- `LyricGame.exit_session` (src/main.py lines 652-667): delete the
record when present and answer the exit message, else `None` and no
change. -/
def exit_session (store : Store) (user_id : Str) : Option Str × Store :=
  if store.any fun p => decide (p.1 = user_id) then
    (some msg_exit_game, store.filter fun p => decide (p.1 ≠ user_id))
  else (none, store)

/-- One pass of `LyricGame._cleanup_sessions` (src/main.py lines
336-360) at time `now`: remove the sessions idle for more than twice the
timeout that are not in a game. -/
def sweep (cfg : Config) (now : Int) (store : Store) : Store :=
  store.filter fun p =>
    !(decide (now - p.2.last_active > cfg.session_timeout * 2) && !p.2.in_song)

/-- `LyricGame.get_session` (src/main.py lines 372-379) on one user's
optional record: create with defaults, or refresh `last_active`. -/
def getSession (now : Int) : Option Session → Session
  | none => initSession now
  | some s => { s with last_active := now }

/-- `LyricGamePlugin.handle_lyric_search` (lines 726-773): on a
non-empty search result enter the selection state; `songs` is what the
external search collaborator answers (`[]` for `None`). -/
def applySearch (songs : List Song) (now : Int) (st : Option Session) :
    Option Session :=
  let s := getSession now st
  if songs = [] then some s
  else some { s with selecting_song := true, song_candidates := songs }

/-- `LyricGamePlugin.handle_lyric_start_from` (lines 776-823): as the
search, and additionally record the start keyword. -/
def applyFrom (songs : List Song) (kw : Str) (now : Int) (st : Option Session) :
    Option Session :=
  let s := getSession now st
  if songs = [] then some s
  else some { s with
      selecting_song := true, song_candidates := songs,
      start_lyric_keyword := some kw }

/-- `LyricGamePlugin.handle_number_selection` (lines 825-941): `k` is the
typed number, `lyricsRes` what `LyricGame.get_lyrics` answers. The
selection state is cleared before the lyrics are fetched; a missing or
empty lyric list, or an unfound start keyword, leaves the session out of
the game. -/
def applyChoose (cfg : Config) (k : Nat) (lyricsRes : Option (List LyricLine))
    (now : Int) (st : Option Session) : Option Session :=
  let s := getSession now st
  if s.selecting_song = false ∨ s.song_candidates = [] then some s
  else if 1 ≤ k ∧ k ≤ s.song_candidates.length then
    let chosen := s.song_candidates.getD (k - 1) ⟨[], [], [], []⟩
    let s1 : Session := { s with selecting_song := false, song_candidates := [] }
    match lyricsRes with
    | none => some s1
    | some lyr =>
      if lyr = [] then some s1
      else
        match s1.start_lyric_keyword with
        | some kw =>
          match lyr.findIdx? (fun l => is_match cfg.match_threshold kw l.text) with
          | none => some { s1 with start_lyric_keyword := none }
          | some idx =>
            some { s1 with
                song_id := some chosen.id, song_info := some chosen,
                lyrics := lyr, position := idx, in_song := true,
                last_time := now, start_lyric_keyword := none }
        | none =>
          some { s1 with
              song_id := some chosen.id, song_info := some chosen,
              lyrics := lyr, position := 0, in_song := true, last_time := now }
  else some s

/-- `handle_all_messages` (lines 943-1011) on a lyric submission: skipped
while selecting a song, otherwise delegates to `LyricGame.handle`. -/
def applySubmit (cfg : Config) (user_input : Str) (now : Int)
    (st : Option Session) : Option Session :=
  let s := getSession now st
  if s.selecting_song = true then some s
  else some (handle cfg user_input now s).2

/-- The exit command path of `handle_all_messages` plus
`LyricGame.exit_session`: the record is deleted (or stays absent). -/
def applyExit (_ : Option Session) : Option Session := none

/-- The lazy timeout reset at the top of `LyricGame.handle` (lines
574-580), as the visible effect of a message arriving late. -/
def applyTimeout (cfg : Config) (now : Int) : Option Session → Option Session
  | none => none
  | some s =>
    if now - s.last_time > cfg.session_timeout ∧ s.in_song = true then
      some { s with in_song := false, last_time := now, last_active := now }
    else some { s with last_time := now, last_active := now }

/-- The sweep (`_cleanup_sessions`) restricted to one user's record. -/
def applySweep (cfg : Config) (now : Int) : Option Session → Option Session
  | none => none
  | some s =>
    if now - s.last_active > cfg.session_timeout * 2 ∧ s.in_song = false then none
    else some s

/-- Session states of one user reachable from a fresh user through the
exposed operations: search, from, candidate choice, line submission,
exit, timeout, sweep. -/
inductive Reachable (cfg : Config) : Option Session → Prop where
  | init : Reachable cfg none
  | search {st} (songs : List Song) (now : Int) :
      Reachable cfg st → Reachable cfg (applySearch songs now st)
  | startFrom {st} (songs : List Song) (kw : Str) (now : Int) :
      Reachable cfg st → Reachable cfg (applyFrom songs kw now st)
  | choose {st} (k : Nat) (lyricsRes : Option (List LyricLine)) (now : Int) :
      Reachable cfg st → Reachable cfg (applyChoose cfg k lyricsRes now st)
  | submit {st} (user_input : Str) (now : Int) :
      Reachable cfg st → Reachable cfg (applySubmit cfg user_input now st)
  | exitOp {st} : Reachable cfg st → Reachable cfg (applyExit st)
  | timeoutOp {st} (now : Int) :
      Reachable cfg st → Reachable cfg (applyTimeout cfg now st)
  | sweepOp {st} (now : Int) :
      Reachable cfg st → Reachable cfg (applySweep cfg now st)

/-- Reachability as in `Reachable`, except that the search operations
are only issued while no game is in progress — the regime under which
the spec's mutual-exclusion invariant does hold. -/
inductive ReachableGuarded (cfg : Config) : Option Session → Prop where
  | init : ReachableGuarded cfg none
  | search {st} (songs : List Song) (now : Int)
      (hin : ∀ s, st = some s → s.in_song = false) :
      ReachableGuarded cfg st → ReachableGuarded cfg (applySearch songs now st)
  | startFrom {st} (songs : List Song) (kw : Str) (now : Int)
      (hin : ∀ s, st = some s → s.in_song = false) :
      ReachableGuarded cfg st → ReachableGuarded cfg (applyFrom songs kw now st)
  | choose {st} (k : Nat) (lyricsRes : Option (List LyricLine)) (now : Int) :
      ReachableGuarded cfg st →
      ReachableGuarded cfg (applyChoose cfg k lyricsRes now st)
  | submit {st} (user_input : Str) (now : Int) :
      ReachableGuarded cfg st →
      ReachableGuarded cfg (applySubmit cfg user_input now st)
  | exitOp {st} : ReachableGuarded cfg st → ReachableGuarded cfg (applyExit st)
  | timeoutOp {st} (now : Int) :
      ReachableGuarded cfg st → ReachableGuarded cfg (applyTimeout cfg now st)
  | sweepOp {st} (now : Int) :
      ReachableGuarded cfg st → ReachableGuarded cfg (applySweep cfg now st)

/-! ### Correctness of the row dynamic program against `levSpec` -/

theorem levSpec_nil_left (ys : Str) : levSpec [] ys = ys.length := by
  cases ys <;> simp [levSpec]

theorem levSpec_nil_right (xs : Str) : levSpec xs [] = xs.length := by
  cases xs <;> simp [levSpec]

theorem levSpec_cons_cons (x y : Char) (xs ys : Str) :
    levSpec (x :: xs) (y :: ys) =
      min (levSpec xs (y :: ys) + 1)
        (min (levSpec (x :: xs) ys + 1) (levSpec xs ys + subCost x y)) := by
  rw [levSpec]

theorem subCost_comm (a b : Char) : subCost a b = subCost b a := by
  unfold subCost
  rcases eq_or_ne a b with h | h
  · rw [if_pos h, if_pos h.symm]
  · rw [if_neg h, if_neg fun hba => h hba.symm]

set_option maxHeartbeats 1600000 in
/-- The textbook recursion also satisfies the recurrence that peels the
last character of each string; this is what each cell update of the row
dynamic program computes. -/
theorem levSpec_snoc (c d : Char) (p q : Str) :
    levSpec (p ++ [c]) (q ++ [d]) =
      min (levSpec p (q ++ [d]) + 1)
        (min (levSpec (p ++ [c]) q + 1) (levSpec p q + subCost c d)) := by
  induction p generalizing q with
  | nil =>
    induction q with
    | nil =>
      simp [levSpec_cons_cons, levSpec_nil_left, levSpec_nil_right]
    | cons e q ihq =>
      simp only [List.nil_append] at ihq ⊢
      rw [List.cons_append, levSpec_cons_cons, ihq,
        levSpec_cons_cons c e [] q]
      simp only [levSpec_nil_left, List.length_append, List.length_cons,
        List.length_nil]
      simp only [subCost]
      clear ihq
      split <;> split <;> omega
  | cons b p ihp =>
    induction q with
    | nil =>
      have h1 := ihp []
      simp only [List.nil_append] at h1 ⊢
      rw [List.cons_append, levSpec_cons_cons, h1,
        levSpec_cons_cons b d p []]
      simp only [levSpec_nil_right, List.length_append, List.length_cons,
        List.length_nil]
      simp only [subCost]
      clear h1 ihp
      split <;> split <;> omega
    | cons e q ihq =>
      have h1 := ihp (e :: q)
      have h2 := ihp q
      simp only [List.cons_append] at h1 ihq ⊢
      rw [levSpec_cons_cons, h1, ihq, h2,
        levSpec_cons_cons b e p (q ++ [d]),
        levSpec_cons_cons b e (p ++ [c]) q, levSpec_cons_cons b e p q]
      clear h1 h2 ihq ihp
      generalize subCost c d = v
      generalize subCost b e = u
      simp only [← min_add_add_right]
      simp only [Nat.add_assoc, Nat.add_comm, Nat.add_left_comm]
      simp only [min_assoc]
      simp only [min_comm, min_left_comm]

/-- `levSpec` is symmetric in its arguments: the cost matrix is. -/
theorem levSpec_comm (a b : Str) : levSpec a b = levSpec b a := by
  induction a generalizing b with
  | nil => rw [levSpec_nil_left, levSpec_nil_right]
  | cons x xs ih =>
    induction b with
    | nil => rw [levSpec_nil_left, levSpec_nil_right]
    | cons y ys ihb =>
      rw [levSpec_cons_cons, levSpec_cons_cons, ih (y :: ys), ihb,
        ih ys, subCost_comm]
      omega

theorem specSeg_head_tail (t q : Str) (r : Str) :
    specSeg t q r = levSpec t q :: (specSeg t q r).tail := by
  cases r <;> rfl

theorem specSeg_headD (t q : Str) (r : Str) :
    (specSeg t q r).headD 0 = levSpec t q := by
  cases r <;> rfl

/-- One pass of the inner loop turns the previous row into the tail of
the next row (the head `i + 1` is consed on by the outer loop). -/
theorem levRow_spec (c1 : Char) (t : Str) :
    ∀ (r q : Str),
      levRow c1 r (specSeg t q r) (levSpec (t ++ [c1]) q) =
        (specSeg (t ++ [c1]) q r).tail := by
  intro r
  induction r with
  | nil => intro q; rfl
  | cons c2 rest ih =>
    intro q
    rw [specSeg, levRow]
    simp only [List.tail_cons, specSeg_headD, List.headD_cons]
    rw [show min (levSpec t (q ++ [c2]) + 1)
          (min (levSpec (t ++ [c1]) q + 1) (levSpec t q + subCost c1 c2)) =
        levSpec (t ++ [c1]) (q ++ [c2]) from (levSpec_snoc c1 c2 t q).symm,
      ih (q ++ [c2]),
      show specSeg (t ++ [c1]) q (c2 :: rest) =
          levSpec (t ++ [c1]) q :: specSeg (t ++ [c1]) (q ++ [c2]) rest
        from rfl,
      List.tail_cons, ← specSeg_head_tail]

/-- The outer loop maps the row for prefix `t` to the row for `t ++ s1`. -/
theorem levRows_spec (s2 : Str) :
    ∀ (s1 t : Str),
      levRows s2 s1 (specSeg t [] s2) t.length = specSeg (t ++ s1) [] s2 := by
  intro s1
  induction s1 with
  | nil => intro t; simp [levRows]
  | cons c1 s1 ih =>
    intro t
    rw [levRows]
    have hlen : t.length + 1 = levSpec (t ++ [c1]) [] := by
      rw [levSpec_nil_right, List.length_append, List.length_cons,
        List.length_nil]
    rw [hlen, levRow_spec c1 t s2 [], ← specSeg_head_tail,
      show levSpec (t ++ [c1]) [] = (t ++ [c1]).length from
        levSpec_nil_right _,
      ih (t ++ [c1])]
    simp

theorem specSeg_nil_eq_range' :
    ∀ (r q : Str), specSeg [] q r = List.range' q.length (r.length + 1) := by
  intro r
  induction r with
  | nil => intro q; simp [specSeg, levSpec_nil_left, List.range']
  | cons c2 rest ih =>
    intro q
    rw [specSeg, ih (q ++ [c2]), levSpec_nil_left]
    simp only [List.length_append, List.length_cons, List.length_nil]
    conv_rhs => rw [List.range'_succ]

theorem specSeg_getLastD (t : Str) :
    ∀ (r q : Str) (d : Nat), (specSeg t q r).getLastD d = levSpec t (q ++ r) := by
  intro r
  induction r with
  | nil => intro q d; simp [specSeg]
  | cons c2 rest ih =>
    intro q d
    rw [specSeg, List.getLastD_cons, ih (q ++ [c2])]
    simp [List.append_assoc]

/-- The row dynamic program of `_levenshtein_distance` computes the
textbook edit distance. -/
theorem levCore_eq (s1 s2 : Str) : levCore s1 s2 = levSpec s1 s2 := by
  rw [levCore]
  split
  · next h =>
    rw [List.length_eq_zero.mp h, levSpec_nil_right]
  · have h0 : List.range (s2.length + 1) = specSeg [] [] s2 := by
      rw [specSeg_nil_eq_range', List.length_nil, List.range_eq_range']
    rw [h0,
      show (0 : Nat) = ([] : Str).length from rfl,
      levRows_spec s2 s1 [], specSeg_getLastD]
    simp

/-- `LyricGame._levenshtein_distance` agrees with the textbook
Levenshtein distance on every pair of strings. -/
theorem levenshtein_distance_eq (s1 s2 : Str) :
    levenshtein_distance s1 s2 = levSpec s1 s2 := by
  rw [levenshtein_distance]
  split
  · rw [levCore_eq, levSpec_comm]
  · rw [levCore_eq]

/-! ### The claims -/

/-- C1, counterexample: at `a = "abc"`, `b = "abd"` (normalized lengths 3,
edit distance 1) the code answers `int(66.66…) = 66`, while the claim's
`round((1 - d/m) * 100)` is `67` — the fourth tier of the claim, as
stated with `round`, is false of the code. -/
theorem c1_counterexample :
    calculate_similarity "abc".data "abd".data = 66 ∧
    scoreSpecRounded "abc".data "abd".data = 67 := by
  have hlev : levSpec (clean_text "abc".data) (clean_text "abd".data) = 1 := by
    rw [← levenshtein_distance_eq]; decide
  refine ⟨by decide, ?_⟩
  simp only [scoreSpecRounded, hlev]
  decide

/-- C1 (amended): the four tiers hold in order with the edit-distance
tier *truncated* — Python `int()` truncates the binary64 evaluation of
`(1 - d/m) * 100`, it does not round — with `d` the (textbook)
Levenshtein distance of the normalized strings and `m` the maximum of
their lengths: for all strings the code's score equals the tiered score
`scoreSpecTrunc` built from `levSpec` and the bit-exact float model. -/
theorem c1_score_tiers (a b : Str) :
    calculate_similarity a b = scoreSpecTrunc a b := by
  simp only [calculate_similarity, scoreSpecTrunc, levenshtein_distance_eq]
  by_cases h0 : a = [] ∨ b = []
  · rw [if_pos h0]
    rcases h0 with h | h <;> subst h <;> simp [clean_text]
  · rw [if_neg h0]
    split_ifs with h1 h2 h3 h4 <;> try rfl
    exfalso
    rcases not_or.mp h1 with ⟨hc1, _⟩
    have hpos := List.length_pos.mpr hc1
    omega

/-- C2: on a matching submission with a following line available, the
reply is that following line and the position advances by two; when the
new position exhausts the lyrics, the same single reply is the combined
message (the responder line with the completion notice appended, each
contained in it) and the session leaves the song. -/
theorem c2_submit_match_advances (cfg : Config) (user_input : Str) (now : Int)
    (s : Session) (hin : s.in_song = true)
    (htime : ¬ now - s.last_time > cfg.session_timeout)
    (hpos : s.position + 1 < s.lyrics.length)
    (hmatch : is_match cfg.match_threshold user_input
      ((s.lyrics.getD s.position dfl).text) = true) :
    (handle cfg user_input now s).2.position = s.position + 2 ∧
    (handle cfg user_input now s).2.lyrics = s.lyrics ∧
    (s.position + 2 < s.lyrics.length →
      (handle cfg user_input now s).1 =
        some ((s.lyrics.getD (s.position + 1) dfl).text) ∧
      (handle cfg user_input now s).2.in_song = true) ∧
    (s.lyrics.length ≤ s.position + 2 →
      (handle cfg user_input now s).2.in_song = false ∧
      (handle cfg user_input now s).1 =
        some (msg_song_completed_with_last_line
          ((s.lyrics.getD (s.position + 1) dfl).text)) ∧
      (s.lyrics.getD (s.position + 1) dfl).text <:+:
        msg_song_completed_with_last_line
          ((s.lyrics.getD (s.position + 1) dfl).text) ∧
      msg_song_completed <:+:
        msg_song_completed_with_last_line
          ((s.lyrics.getD (s.position + 1) dfl).text)) := by
  have h1 : ¬(now - s.last_time > cfg.session_timeout ∧ s.in_song = true) :=
    fun h => htime h.1
  have h2 : ¬ s.lyrics.length ≤ s.position := by omega
  have hin' : ¬ s.in_song = false := by simp [hin]
  have hsplit : ("\n\n🎉 歌曲已唱完！".data : Str)
      = "\n\n".data ++ msg_song_completed := by decide
  by_cases hend : s.lyrics.length ≤ s.position + 2
  · have hh : handle cfg user_input now s =
        (some (msg_song_completed_with_last_line
            ((s.lyrics.getD (s.position + 1) dfl).text)),
          { s with last_active := now, last_time := now,
                   position := s.position + 2, in_song := false }) := by
      simp only [handle, if_neg h1, if_neg hin', if_neg h2, if_pos hmatch,
        if_pos hpos, if_pos hend]
    rw [hh]
    refine ⟨rfl, rfl, fun h => absurd hend (by omega),
      fun _ => ⟨rfl, rfl, ?_, ?_⟩⟩
    · exact ⟨[], "\n\n🎉 歌曲已唱完！".data, by
        simp [msg_song_completed_with_last_line]⟩
    · exact ⟨(s.lyrics.getD (s.position + 1) dfl).text ++ "\n\n".data, [], by
        simp [msg_song_completed_with_last_line, msg_song_completed, hsplit,
          List.append_assoc]⟩
  · have hh : handle cfg user_input now s =
        (some ((s.lyrics.getD (s.position + 1) dfl).text),
          { s with last_active := now, last_time := now,
                   position := s.position + 2 }) := by
      simp only [handle, if_neg h1, if_neg hin', if_neg h2, if_pos hmatch,
        if_pos hpos, if_neg hend]
    rw [hh]
    exact ⟨rfl, rfl, fun _ => ⟨rfl, hin⟩, fun h => absurd h hend⟩

/-- C4: a non-matching submission leaves the session in the song at the
same position with the lyrics unchanged, and replies with the failure
message carrying the computed similarity and the expected line (both
contained in the reply). -/
theorem c4_no_match_frame (cfg : Config) (user_input : Str) (now : Int)
    (s : Session) (hin : s.in_song = true)
    (htime : ¬ now - s.last_time > cfg.session_timeout)
    (hpos : s.position < s.lyrics.length)
    (hmatch : is_match cfg.match_threshold user_input
      ((s.lyrics.getD s.position dfl).text) = false) :
    (handle cfg user_input now s).2.position = s.position ∧
    (handle cfg user_input now s).2.in_song = true ∧
    (handle cfg user_input now s).2.lyrics = s.lyrics ∧
    (handle cfg user_input now s).1 =
      some (msg_match_failed
        (calculate_similarity user_input ((s.lyrics.getD s.position dfl).text))
        user_input ((s.lyrics.getD s.position dfl).text)) ∧
    (Nat.repr (calculate_similarity user_input
        ((s.lyrics.getD s.position dfl).text))).data <:+:
      msg_match_failed
        (calculate_similarity user_input ((s.lyrics.getD s.position dfl).text))
        user_input ((s.lyrics.getD s.position dfl).text) ∧
    (s.lyrics.getD s.position dfl).text <:+:
      msg_match_failed
        (calculate_similarity user_input ((s.lyrics.getD s.position dfl).text))
        user_input ((s.lyrics.getD s.position dfl).text) := by
  have h1 : ¬(now - s.last_time > cfg.session_timeout ∧ s.in_song = true) :=
    fun h => htime h.1
  have h2 : ¬ s.lyrics.length ≤ s.position := by omega
  have hin' : ¬ s.in_song = false := by simp [hin]
  have hmatch' : ¬ is_match cfg.match_threshold user_input
      ((s.lyrics.getD s.position dfl).text) = true := by
    simp only [hmatch]; decide
  have hh : handle cfg user_input now s =
      (some (msg_match_failed
          (calculate_similarity user_input
            ((s.lyrics.getD s.position dfl).text))
          user_input ((s.lyrics.getD s.position dfl).text)),
        { s with last_active := now, last_time := now }) := by
    simp only [handle, if_neg h1, if_neg hin', if_neg h2, if_neg hmatch']
  rw [hh]
  refine ⟨rfl, hin, rfl, rfl, ?_, ?_⟩
  · refine ⟨"不匹配（相似度: ".data,
      "%），请重试！\n你输入: ".data ++ user_input
        ++ "\n正确歌词: ".data ++ (s.lyrics.getD s.position dfl).text
        ++ "\n提示：发送\x27退出接歌\x27可退出游戏".data, ?_⟩
    simp [msg_match_failed]
  · refine ⟨"不匹配（相似度: ".data
        ++ (Nat.repr (calculate_similarity user_input
          ((s.lyrics.getD s.position dfl).text))).data
        ++ "%），请重试！\n你输入: ".data ++ user_input
        ++ "\n正确歌词: ".data,
      "\n提示：发送\x27退出接歌\x27可退出游戏".data, ?_⟩
    simp [msg_match_failed]

/-- C2, witness: the spec's own example run. Lyrics `a b c d`: submitting
`"a"` at position 0 replies `"b"` and moves to position 2; submitting
`"c"` at position 2 replies the combined `"d" ++ completion notice` and
leaves the song. -/
theorem c2_witness :
    (handle {} "a".data 0
        { last_active := 0, in_song := true,
          lyrics := [⟨0, "a".data⟩, ⟨1, "b".data⟩, ⟨2, "c".data⟩,
            ⟨3, "d".data⟩] }).2.position = 2 ∧
    (handle {} "a".data 0
        { last_active := 0, in_song := true,
          lyrics := [⟨0, "a".data⟩, ⟨1, "b".data⟩, ⟨2, "c".data⟩,
            ⟨3, "d".data⟩] }).1 = some "b".data ∧
    (handle {} "c".data 0
        { last_active := 0, in_song := true, position := 2,
          lyrics := [⟨0, "a".data⟩, ⟨1, "b".data⟩, ⟨2, "c".data⟩,
            ⟨3, "d".data⟩] }).2.in_song = false ∧
    (handle {} "c".data 0
        { last_active := 0, in_song := true, position := 2,
          lyrics := [⟨0, "a".data⟩, ⟨1, "b".data⟩, ⟨2, "c".data⟩,
            ⟨3, "d".data⟩] }).1 =
      some ("d".data ++ "\n\n🎉 歌曲已唱完！".data) := by
  have h1 := c2_submit_match_advances {} "a".data 0
    { last_active := 0, in_song := true,
      lyrics := [⟨0, "a".data⟩, ⟨1, "b".data⟩, ⟨2, "c".data⟩, ⟨3, "d".data⟩] }
    rfl (by decide) (by decide) (by decide)
  have h2 := c2_submit_match_advances {} "c".data 0
    { last_active := 0, in_song := true, position := 2,
      lyrics := [⟨0, "a".data⟩, ⟨1, "b".data⟩, ⟨2, "c".data⟩, ⟨3, "d".data⟩] }
    rfl (by decide) (by decide) (by decide)
  exact ⟨h1.1, (h1.2.2.1 (by decide)).1, (h2.2.2.2 (by decide)).1,
    (h2.2.2.2 (by decide)).2.1⟩

/-- C4, witness: submitting `"x"` against expected `"a"` (similarity 0)
leaves position 0, stays in the song, and replies the failure message. -/
theorem c4_witness :
    (handle {} "x".data 0
        { last_active := 0, in_song := true,
          lyrics := [⟨0, "a".data⟩, ⟨1, "b".data⟩] }).2.position = 0 ∧
    (handle {} "x".data 0
        { last_active := 0, in_song := true,
          lyrics := [⟨0, "a".data⟩, ⟨1, "b".data⟩] }).2.in_song = true ∧
    (handle {} "x".data 0
        { last_active := 0, in_song := true,
          lyrics := [⟨0, "a".data⟩, ⟨1, "b".data⟩] }).1 =
      some (msg_match_failed 0 "x".data "a".data) := by
  have h := c4_no_match_frame {} "x".data 0
    { last_active := 0, in_song := true,
      lyrics := [⟨0, "a".data⟩, ⟨1, "b".data⟩] }
    rfl (by decide) (by decide) (by decide)
  exact ⟨h.1, h.2.1, h.2.2.2.1⟩

/-! ### Position locator -/

theorem firstMatchFrom_none (thr : Nat) (user_input : Str)
    (lyrics : List LyricLine) :
    ∀ (count start : Nat),
      firstMatchFrom thr user_input lyrics start count = none ↔
        ∀ j, start ≤ j → j < start + count →
          is_match thr user_input ((lyrics.getD j dfl).text) = false := by
  intro count
  induction count with
  | zero =>
    intro start
    constructor
    · intro _ j hj1 hj2
      exact absurd hj2 (by omega)
    · intro _
      rfl
  | succ count ih =>
    intro start
    rw [firstMatchFrom]
    by_cases hp : is_match thr user_input ((lyrics.getD start dfl).text) = true
    · rw [if_pos hp]
      refine iff_of_false (by simp) ?_
      intro hall
      rw [hall start (le_refl _) (by omega)] at hp
      exact absurd hp (by decide)
    · rw [if_neg hp]
      rw [ih (start + 1)]
      constructor
      · intro h j hj1 hj2
        rcases eq_or_lt_of_le hj1 with rfl | hj
        · exact Bool.not_eq_true _ |>.mp hp
        · exact h j (by omega) (by omega)
      · intro h j hj1 hj2
        exact h j (by omega) (by omega)

theorem firstMatchFrom_some (thr : Nat) (user_input : Str)
    (lyrics : List LyricLine) :
    ∀ (count start i : Nat),
      firstMatchFrom thr user_input lyrics start count = some i →
        start ≤ i ∧ i < start + count ∧
        is_match thr user_input ((lyrics.getD i dfl).text) = true ∧
        ∀ j, start ≤ j → j < i →
          is_match thr user_input ((lyrics.getD j dfl).text) = false := by
  intro count
  induction count with
  | zero =>
    intro start i h
    exact absurd h (by simp [firstMatchFrom])
  | succ count ih =>
    intro start i h
    rw [firstMatchFrom] at h
    by_cases hp : is_match thr user_input ((lyrics.getD start dfl).text) = true
    · rw [if_pos hp] at h
      cases h
      exact ⟨le_refl _, by omega, hp, fun j hj1 hj2 => absurd hj2 (by omega)⟩
    · rw [if_neg hp] at h
      obtain ⟨ha, hb, hc, hd⟩ := ih (start + 1) i h
      refine ⟨by omega, by omega, hc, ?_⟩
      intro j hj1 hj2
      rcases eq_or_lt_of_le hj1 with rfl | hj
      · exact Bool.not_eq_true _ |>.mp hp
      · exact hd j (by omega) hj2

/-- C7: the position locator answers `-1` or an index in
`[0, len(lines))`, and `-1` exactly when no line of the sequence matches
the input. -/
theorem c7_find_position_range (thr : Nat) (user_input : Str)
    (lyrics : List LyricLine) (s : Session) :
    (find_position thr user_input lyrics s = -1 ∨
      (0 ≤ find_position thr user_input lyrics s ∧
        find_position thr user_input lyrics s < (lyrics.length : Int))) ∧
    (find_position thr user_input lyrics s = -1 ↔
      ∀ i, i < lyrics.length →
        is_match thr user_input ((lyrics.getD i dfl).text) = false) := by
  by_cases hnil : lyrics = []
  · subst hnil
    refine ⟨Or.inl rfl, iff_of_true rfl ?_⟩
    intro i hi
    exact absurd hi (by simp)
  unfold find_position
  rw [if_neg hnil]
  by_cases hc1 : s.in_song = true ∧ s.position < lyrics.length ∧
      is_match thr user_input ((lyrics.getD s.position dfl).text) = true
  · rw [if_pos hc1]
    refine ⟨Or.inr ⟨by omega, by exact_mod_cast hc1.2.1⟩,
      iff_of_false (by omega) ?_⟩
    intro hall
    have hfalse := hall s.position hc1.2.1
    rw [hfalse] at hc1
    exact absurd hc1.2.2 (by decide)
  rw [if_neg hc1]
  by_cases hc2 : s.in_song = true ∧ s.position + 1 < lyrics.length ∧
      is_match thr user_input ((lyrics.getD (s.position + 1) dfl).text) = true
  · rw [if_pos hc2]
    refine ⟨Or.inr ⟨by omega, by exact_mod_cast hc2.2.1⟩,
      iff_of_false (by omega) ?_⟩
    intro hall
    have hfalse := hall (s.position + 1) hc2.2.1
    rw [hfalse] at hc2
    exact absurd hc2.2.2 (by decide)
  rw [if_neg hc2]
  rcases hstrat3 : (if s.in_song = true then
      firstMatchFrom thr user_input lyrics (s.position - 3)
        (min lyrics.length (s.position + 10) - (s.position - 3))
    else none) with _ | i
  · dsimp only
    rcases hglob : firstMatchFrom thr user_input lyrics 0 lyrics.length
      with _ | i
    · dsimp only
      refine ⟨Or.inl rfl, iff_of_true rfl ?_⟩
      intro i hi
      exact (firstMatchFrom_none thr user_input lyrics lyrics.length 0).mp
        hglob i (Nat.zero_le _) (by omega)
    · dsimp only
      obtain ⟨h0, hlt, hP, _⟩ :=
        firstMatchFrom_some thr user_input lyrics lyrics.length 0 i hglob
      refine ⟨Or.inr ⟨by omega, by exact_mod_cast (by omega : i < lyrics.length)⟩,
        iff_of_false (by omega) ?_⟩
      intro hall
      have hfalse := hall i (by omega)
      rw [hfalse] at hP
      exact absurd hP (by decide)
  · dsimp only
    have hin : s.in_song = true := by
      by_contra h
      rw [if_neg h] at hstrat3
      exact absurd hstrat3 (by simp)
    rw [if_pos hin] at hstrat3
    obtain ⟨hge, hlt, hP, _⟩ :=
      firstMatchFrom_some thr user_input lyrics _ _ i hstrat3
    have hcnt : min lyrics.length (s.position + 10) - (s.position - 3) ≠ 0 := by
      intro h0
      rw [h0] at hstrat3
      exact absurd hstrat3 (by simp [firstMatchFrom])
    have hilen : i < lyrics.length := by omega
    refine ⟨Or.inr ⟨by omega, by exact_mod_cast hilen⟩,
      iff_of_false (by omega) ?_⟩
    intro hall
    have hfalse := hall i hilen
    rw [hfalse] at hP
    exact absurd hP (by decide)

/-- C7, witness: the range-and-characterisation statement at a concrete
input: two lines, of which the second (and, fuzzily, the first) matches. -/
theorem c7_witness :
    (find_position 75 "a line".data [⟨0, "xx".data⟩, ⟨1, "a line".data⟩]
        (initSession 0) = -1 ∨
      (0 ≤ find_position 75 "a line".data [⟨0, "xx".data⟩, ⟨1, "a line".data⟩]
          (initSession 0) ∧
        find_position 75 "a line".data [⟨0, "xx".data⟩, ⟨1, "a line".data⟩]
            (initSession 0) <
          (([⟨0, "xx".data⟩, ⟨1, "a line".data⟩] : List LyricLine).length :
            Int))) ∧
    (find_position 75 "a line".data [⟨0, "xx".data⟩, ⟨1, "a line".data⟩]
        (initSession 0) = -1 ↔
      ∀ i, i < ([⟨0, "xx".data⟩, ⟨1, "a line".data⟩] : List LyricLine).length →
        is_match 75 "a line".data
          ((([⟨0, "xx".data⟩, ⟨1, "a line".data⟩] : List LyricLine).getD i
            dfl).text) = false) :=
  c7_find_position_range 75 "a line".data [⟨0, "xx".data⟩, ⟨1, "a line".data⟩]
    (initSession 0)

/-- C9: while no game is in progress the locator ignores the session
entirely and answers the lowest matching index of the global scan, or
`-1` when no line matches. -/
theorem c9_global_scan (thr : Nat) (user_input : Str)
    (lyrics : List LyricLine) (s s' : Session)
    (h : s.in_song = false) (h' : s'.in_song = false) :
    find_position thr user_input lyrics s =
      find_position thr user_input lyrics s' ∧
    ((find_position thr user_input lyrics s = -1 ∧
        ∀ i, i < lyrics.length →
          is_match thr user_input ((lyrics.getD i dfl).text) = false) ∨
      (∃ i : Nat, find_position thr user_input lyrics s = (i : Int) ∧
        i < lyrics.length ∧
        is_match thr user_input ((lyrics.getD i dfl).text) = true ∧
        ∀ j, j < i →
          is_match thr user_input ((lyrics.getD j dfl).text) = false)) := by
  have key : ∀ (t : Session), t.in_song = false →
      find_position thr user_input lyrics t =
        (match firstMatchFrom thr user_input lyrics 0 lyrics.length with
          | some i => (i : Int)
          | none => -1) := by
    intro t ht
    have hin' : ¬ t.in_song = true := by simp [ht]
    unfold find_position
    by_cases hnil : lyrics = []
    · subst hnil
      rw [if_pos rfl]
      simp [firstMatchFrom]
    rw [if_neg hnil, if_neg (fun hh => hin' hh.1), if_neg (fun hh => hin' hh.1),
      if_neg hin']
  refine ⟨by rw [key s h, key s' h'], ?_⟩
  rcases hglob : firstMatchFrom thr user_input lyrics 0 lyrics.length
    with _ | i
  · left
    constructor
    · rw [key s h, hglob]
    · intro i hi
      exact (firstMatchFrom_none thr user_input lyrics lyrics.length 0).mp
        hglob i (Nat.zero_le _) (by omega)
  · right
    obtain ⟨h0, hlt, hP, hmin⟩ :=
      firstMatchFrom_some thr user_input lyrics lyrics.length 0 i hglob
    refine ⟨i, by rw [key s h, hglob], by omega, hP, ?_⟩
    intro j hj
    exact hmin j (Nat.zero_le _) hj

/-- C9, witness: with no game in progress two sessions at different
positions agree, and the locator answers the lowest matching index. -/
theorem c9_witness :
    find_position 75 "a line".data [⟨0, "xx".data⟩, ⟨1, "a line".data⟩]
        (initSession 0) =
      find_position 75 "a line".data [⟨0, "xx".data⟩, ⟨1, "a line".data⟩]
        { last_active := 5, position := 3 } ∧
    ((find_position 75 "a line".data [⟨0, "xx".data⟩, ⟨1, "a line".data⟩]
          (initSession 0) = -1 ∧
        ∀ i, i < ([⟨0, "xx".data⟩, ⟨1, "a line".data⟩] : List LyricLine).length →
          is_match 75 "a line".data
            ((([⟨0, "xx".data⟩, ⟨1, "a line".data⟩] : List LyricLine).getD i
              dfl).text) = false) ∨
      (∃ i : Nat, find_position 75 "a line".data
          [⟨0, "xx".data⟩, ⟨1, "a line".data⟩] (initSession 0) = (i : Int) ∧
        i < ([⟨0, "xx".data⟩, ⟨1, "a line".data⟩] : List LyricLine).length ∧
        is_match 75 "a line".data
          ((([⟨0, "xx".data⟩, ⟨1, "a line".data⟩] : List LyricLine).getD i
            dfl).text) = true ∧
        ∀ j, j < i →
          is_match 75 "a line".data
            ((([⟨0, "xx".data⟩, ⟨1, "a line".data⟩] : List LyricLine).getD j
              dfl).text) = false)) :=
  c9_global_scan 75 "a line".data [⟨0, "xx".data⟩, ⟨1, "a line".data⟩]
    (initSession 0) { last_active := 5, position := 3 } rfl rfl

/-! ### Metadata filter, parser, sweep, exit -/

/-- C5, counterexample: the filter first strips one leading `[...]` tag
(line 274), so `"[1]作词:张三"` is dropped although its normalized text
`"[1]作词:张三"` does not start with `"作词:"` — the claim's "exactly
when" over the stated normalisation alone is false. -/
theorem c5_counterexample :
    is_metadata_line ["作词".data] "[1]作词:张三".data = true ∧
    metadataDropSpec ["作词".data] "[1]作词:张三".data = false := by
  constructor
  · decide
  · decide

/-- C5 (amended): a line is dropped exactly when it is non-empty and,
after removing one leading `[...]` tag, the remainder is not
all-whitespace and its normalized text (full-width colon folded to `:`,
whitespace removed, case folded) starts with `"<normalized-keyword>:"`
for some configured keyword; the claim's two examples hold. -/
theorem c5_metadata_iff :
    (∀ (keywords : List Str) (text : Str),
      is_metadata_line keywords text = true ↔
        (text ≠ [] ∧ (stripLeadingTag text).all isSpaceChar = false ∧
          metadataDropSpec keywords (stripLeadingTag text) = true)) ∧
    is_metadata_line ["作词".data] "作词:张三".data = true ∧
    is_metadata_line ["作词".data] "作词家乡".data = false := by
  refine ⟨?_, by decide, by decide⟩
  intro keywords text
  simp only [is_metadata_line, metadataDropSpec]
  split_ifs with h1 h2
  · simp [h1]
  · exact iff_of_false (by simp) fun hc => by
      rw [h2] at hc
      exact absurd hc.2.1 (by decide)
  · have h2' : (stripLeadingTag text).all isSpaceChar = false :=
      Bool.not_eq_true _ |>.mp h2
    exact ⟨fun h => ⟨h1, h2', h⟩, fun hc => hc.2.2⟩

/-- C6: `parse_format_b` output is sorted by timestamp non-decreasing for
every raw input (the parser ends with a sort keyed on the timestamp). -/
theorem c6_parse_lrc_sorted (keywords : List Str) (lrc_content : Str) :
    (parse_lrc_lyrics keywords lrc_content).Pairwise
      (fun a b => a.time ≤ b.time) := by
  simp only [parse_lrc_lyrics]
  split_ifs with h
  · simp
  · have htrans : ∀ (a b c : LyricLine),
        decide (a.time ≤ b.time) = true → decide (b.time ≤ c.time) = true →
        decide (a.time ≤ c.time) = true := by
      intro a b c hab hbc
      exact decide_eq_true
        (le_trans (of_decide_eq_true hab) (of_decide_eq_true hbc))
    have htotal : ∀ (a b : LyricLine),
        (decide (a.time ≤ b.time) || decide (b.time ≤ a.time)) = true := by
      intro a b
      rcases Nat.le_total a.time b.time with h' | h' <;> simp [h']
    refine List.Pairwise.imp ?_ (List.sorted_mergeSort htrans htotal _)
    intro a b hab
    exact of_decide_eq_true hab

/-- C8: the sweep keeps a record exactly when it is not (stale by more
than twice the timeout and out of a game); an in-game record is always
kept, no matter how stale. -/
theorem c8_sweep_exact (cfg : Config) (now : Int) (store : Store)
    (u : Str) (s : Session) :
    ((u, s) ∈ sweep cfg now store ↔
      ((u, s) ∈ store ∧
        ¬(now - s.last_active > 2 * cfg.session_timeout ∧
          s.in_song = false))) ∧
    (s.in_song = true →
      ((u, s) ∈ sweep cfg now store ↔ (u, s) ∈ store)) := by
  have hb : (!(decide (now - s.last_active > cfg.session_timeout * 2)
        && !s.in_song)) = true ↔
      ¬(now - s.last_active > 2 * cfg.session_timeout ∧ s.in_song = false) := by
    rcases hcase : s.in_song <;>
      by_cases hA : now - s.last_active > cfg.session_timeout * 2 <;>
        simp [hA, hcase, Int.mul_comm]
  constructor
  · rw [sweep, List.mem_filter]
    exact and_congr_right fun _ => hb
  · intro hin
    rw [sweep, List.mem_filter]
    constructor
    · exact fun h => h.1
    · intro h
      refine ⟨h, ?_⟩
      simp [hin]

/-- C8, witness: with the default 60-second timeout, at `now = 130` a
session idle since 0 and not in a game is swept, while an identically
stale in-game session is retained. -/
theorem c8_witness :
    ("a".data, ({ last_active := 0 } : Session)) ∉
      sweep {} 130 [("a".data, { last_active := 0 }),
        ("b".data, { last_active := 0, in_song := true })] ∧
    (("b".data, ({ last_active := 0, in_song := true } : Session)) ∈
        sweep {} 130 [("a".data, { last_active := 0 }),
          ("b".data, { last_active := 0, in_song := true })] ↔
      ("b".data, ({ last_active := 0, in_song := true } : Session)) ∈
        [("a".data, ({ last_active := 0 } : Session)),
          ("b".data, { last_active := 0, in_song := true })]) := by
  constructor
  · intro hm
    have h := ((c8_sweep_exact {} 130
      [("a".data, { last_active := 0 }),
        ("b".data, { last_active := 0, in_song := true })]
      "a".data { last_active := 0 }).1.mp hm).2
    exact h ⟨by decide, rfl⟩
  · exact (c8_sweep_exact {} 130
      [("a".data, { last_active := 0 }),
        ("b".data, { last_active := 0, in_song := true })]
      "b".data { last_active := 0, in_song := true }).2 rfl

/-- C10: when the user has a session, exiting answers the configured exit
message and removes exactly that user's record; otherwise it answers
nothing and the store is unchanged. -/
theorem c10_exit_session (store : Store) (user_id : Str) :
    ((∃ s, (user_id, s) ∈ store) →
      (exit_session store user_id).1 = some msg_exit_game ∧
      (∀ s, (user_id, s) ∉ (exit_session store user_id).2) ∧
      (∀ v s, v ≠ user_id →
        ((v, s) ∈ (exit_session store user_id).2 ↔ (v, s) ∈ store))) ∧
    ((∀ s, (user_id, s) ∉ store) →
      exit_session store user_id = (none, store)) := by
  constructor
  · rintro ⟨s0, hs0⟩
    have hany : (store.any fun p => decide (p.1 = user_id)) = true := by
      rw [List.any_eq_true]
      exact ⟨(user_id, s0), hs0, by simp⟩
    rw [exit_session, if_pos hany]
    refine ⟨rfl, ?_, ?_⟩
    · intro s hmem
      rw [List.mem_filter] at hmem
      simp at hmem
    · intro v s hv
      rw [List.mem_filter]
      simp [hv]
  · intro hnone
    have hany : ¬ (store.any fun p => decide (p.1 = user_id)) = true := by
      rw [List.any_eq_true]
      rintro ⟨p, hp, hpd⟩
      rw [decide_eq_true_iff] at hpd
      have hmem : (p.1, p.2) ∈ store := by rwa [Prod.mk.eta]
      exact hnone p.2 (hpd ▸ hmem)
    rw [exit_session, if_neg hany]

/-- C10, witness: a store holding only user `"u"` — exiting `"u"`
answers the message and empties the record; exiting `"v"` answers
nothing and leaves the store unchanged. -/
theorem c10_witness :
    (exit_session [("u".data, initSession 0)] "u".data).1 =
      some msg_exit_game ∧
    (∀ s, ("u".data, s) ∉ (exit_session [("u".data, initSession 0)] "u".data).2) ∧
    exit_session [("u".data, initSession 0)] "v".data =
      (none, [("u".data, initSession 0)]) := by
  have h1 := (c10_exit_session [("u".data, initSession 0)] "u".data).1
    ⟨initSession 0, by simp⟩
  have h2 := (c10_exit_session [("u".data, initSession 0)] "v".data).2
    (by
      rintro s h
      rw [List.mem_singleton] at h
      have hfst : "v".data = "u".data := congrArg Prod.fst h
      exact absurd hfst (by decide))
  exact ⟨h1.1, h1.2.1, h2⟩

/-! ### The selection/in-song invariant -/

/-- `LyricGame.handle` never touches the selection state. -/
theorem handle_selecting_song (cfg : Config) (user_input : Str) (now : Int)
    (t : Session) :
    (handle cfg user_input now t).2.selecting_song = t.selecting_song := by
  simp only [handle]
  split_ifs <;> rfl

/-- C3, counterexample: searching again while a game is in progress
(`handle_lyric_search` sets `selecting_song` without clearing `in_song`)
reaches a state with `selecting` and `in_song` both true: fresh user →
search → choose 1 → search. -/
theorem c3_counterexample :
    ∃ s : Session, Reachable {} (some s) ∧
      s.selecting_song = true ∧ s.in_song = true := by
  have h0 : Reachable ({} : Config) none := Reachable.init
  have h1 := Reachable.search
    [(⟨"1".data, "s".data, "a".data, "al".data⟩ : Song)] 0 h0
  have h2 := Reachable.choose 1 (some [⟨0, "a".data⟩]) 0 h1
  have h3 := Reachable.search
    [(⟨"1".data, "s".data, "a".data, "al".data⟩ : Song)] 0 h2
  refine ⟨{ last_active := 0,
            song_id := some "1".data,
            song_info := some ⟨"1".data, "s".data, "a".data, "al".data⟩,
            lyrics := [⟨0, "a".data⟩],
            position := 0,
            in_song := true,
            last_time := 0,
            selecting_song := true,
            song_candidates := [⟨"1".data, "s".data, "a".data, "al".data⟩] },
    ?_, rfl, rfl⟩
  exact h3

/-- C3 (amended): on every state reachable from a fresh session when the
search operations are only issued while no game is in progress,
`selecting == true` implies `in_song == false` — the code violates the
unrestricted invariant only through a search issued mid-game. -/
theorem c3_selecting_not_in_song (cfg : Config) (st : Option Session)
    (h : ReachableGuarded cfg st) :
    ∀ s, st = some s → s.selecting_song = true → s.in_song = false := by
  induction h with
  | init =>
    intro s hs
    exact absurd hs (by simp)
  | @search st0 songs now hin hprev ih =>
    intro s hs hsel
    rcases st0 with _ | t
    · simp only [applySearch, getSession] at hs
      split_ifs at hs <;> rw [Option.some.injEq] at hs <;> subst hs <;> rfl
    · simp only [applySearch, getSession] at hs
      split_ifs at hs <;> rw [Option.some.injEq] at hs <;> subst hs <;>
        exact hin t rfl
  | @startFrom st0 songs kw now hin hprev ih =>
    intro s hs hsel
    rcases st0 with _ | t
    · simp only [applyFrom, getSession] at hs
      split_ifs at hs <;> rw [Option.some.injEq] at hs <;> subst hs <;> rfl
    · simp only [applyFrom, getSession] at hs
      split_ifs at hs <;> rw [Option.some.injEq] at hs <;> subst hs <;>
        exact hin t rfl
  | @choose st0 k lyricsRes now hprev ih =>
    intro s hs hsel
    rcases st0 with _ | t
    · rcases lyricsRes with _ | lyr <;>
        simp only [applyChoose, getSession, initSession] at hs <;>
        rw [if_pos (Or.inl trivial), Option.some.injEq] at hs <;>
        subst hs <;> rfl
    · rcases lyricsRes with _ | lyr
      · simp only [applyChoose, getSession] at hs
        split_ifs at hs <;> rw [Option.some.injEq] at hs <;> subst hs <;>
          first | exact ih t rfl hsel | simp at hsel
      · simp only [applyChoose, getSession] at hs
        by_cases hguard : t.selecting_song = false ∨ t.song_candidates = []
        · rw [if_pos hguard, Option.some.injEq] at hs
          subst hs
          exact ih t rfl hsel
        · rw [if_neg hguard] at hs
          by_cases hk : 1 ≤ k ∧ k ≤ t.song_candidates.length
          · rw [if_pos hk] at hs
            by_cases hlyr : lyr = []
            · rw [if_pos hlyr, Option.some.injEq] at hs
              subst hs
              simp at hsel
            · rw [if_neg hlyr] at hs
              rcases hkw : t.start_lyric_keyword with _ | kw
              · rw [hkw] at hs
                simp only [Option.some.injEq] at hs
                subst hs
                simp at hsel
              · rw [hkw] at hs
                dsimp only at hs
                rcases hidx : lyr.findIdx?
                    (fun l => is_match cfg.match_threshold kw l.text)
                  with _ | idx <;>
                  rw [hidx] at hs <;> simp only [Option.some.injEq] at hs <;>
                  subst hs <;> simp at hsel
          · rw [if_neg hk, Option.some.injEq] at hs
            subst hs
            exact ih t rfl hsel
  | @submit st0 user_input now hprev ih =>
    intro s hs hsel
    rcases st0 with _ | t
    · simp only [applySubmit, getSession] at hs
      rw [if_neg (by simp [initSession]), Option.some.injEq] at hs
      subst hs
      rw [handle_selecting_song] at hsel
      exact absurd hsel (by simp [initSession])
    · simp only [applySubmit, getSession] at hs
      by_cases hselT : t.selecting_song = true
      · rw [if_pos hselT, Option.some.injEq] at hs
        subst hs
        exact ih t rfl hselT
      · rw [if_neg hselT, Option.some.injEq] at hs
        subst hs
        rw [handle_selecting_song] at hsel
        exact absurd hsel hselT
  | @exitOp st0 hprev ih =>
    intro s hs
    exact absurd hs (by simp [applyExit])
  | @timeoutOp st0 now hprev ih =>
    intro s hs hsel
    rcases st0 with _ | t
    · exact absurd hs (by simp [applyTimeout])
    · simp only [applyTimeout] at hs
      split_ifs at hs <;> rw [Option.some.injEq] at hs <;> subst hs <;>
        first | rfl | exact ih t rfl hsel
  | @sweepOp st0 now hprev ih =>
    intro s hs hsel
    rcases st0 with _ | t
    · exact absurd hs (by simp [applySweep])
    · simp only [applySweep] at hs
      split_ifs at hs <;>
        first
        | exact Option.noConfusion hs
        | (rw [Option.some.injEq] at hs; subst hs; exact ih t rfl hsel)

/-- C3, witness: the state after one search from a fresh user is
guarded-reachable, has `selecting` set and — by the amended invariant —
is not in a game. -/
theorem c3_witness :
    ReachableGuarded {}
      (some { last_active := 0,
              selecting_song := true,
              song_candidates := [⟨"1".data, "s".data, "a".data, "al".data⟩] }) ∧
    ({ last_active := 0,
       selecting_song := true,
       song_candidates := [⟨"1".data, "s".data, "a".data, "al".data⟩] } :
        Session).selecting_song = true ∧
    ({ last_active := 0,
       selecting_song := true,
       song_candidates := [⟨"1".data, "s".data, "a".data, "al".data⟩] } :
        Session).in_song = false := by
  have h0 : ReachableGuarded ({} : Config) none := ReachableGuarded.init
  have h1 := ReachableGuarded.search
    [(⟨"1".data, "s".data, "a".data, "al".data⟩ : Song)] 0
    (fun s hs => absurd hs (by simp)) h0
  have hst : applySearch [(⟨"1".data, "s".data, "a".data, "al".data⟩ : Song)] 0
      none =
      some { last_active := 0,
             selecting_song := true,
             song_candidates := [⟨"1".data, "s".data, "a".data, "al".data⟩] } :=
    rfl
  exact ⟨hst ▸ h1, rfl,
    c3_selecting_not_in_song {} _ h1 _ hst rfl⟩

end LyricsPlus
